import Mathlib

/-!
Verification of the csvparser streaming ingestion pipeline.

The definitions below are a shallow embedding of the JavaScript source:
* `parseCSVLine`, `validateMandatoryFields`, `convertRowToObject`,
  `setNestedProperty` and the line/close handlers of `parseCSVFile`
  come from the `CSVParser` class;
* `uploadUsersBatch` (record mapping, transactional all-or-nothing write)
  comes from `DatabaseService`;
* `processLine` / `finishRun` / `runCSV` model one run of the
  `POST /api/process-csv` handler in `app.js`, with the `onBatch` callback
  inlined (it catches upload failures itself and never throws back into
  the parser).

JavaScript dynamic values are modelled by `JSValue`; objects are ordered
association lists with unique keys (insertion order, overwrite in place),
matching JS object enumeration order for the shapes this program builds.
External effects are made explicit: the destination table is a list of
`DBRow`, the error log file is a list of `(line, message)` entries, and
success/failure of each batch INSERT (a property of the external store:
constraint violation, dropped connection, ...) is an oracle
`dbFails : Nat → Bool` indexed by flush order.
-/

/-- Dynamic JavaScript value, as far as this program manipulates them:
strings, numbers obtained from `parseInt` (including the `NaN` result),
and plain objects. -/
inductive JSValue where
  | str : String → JSValue
  | num : Int → JSValue
  | nan : JSValue
  | obj : List (String × JSValue) → JSValue

/-- A JavaScript object: ordered field list with unique keys. -/
abbrev JSObj := List (String × JSValue)

/-- Property read `fields[key]`; `none` models `undefined`. -/
def lookupKey : JSObj → String → Option JSValue
  | [], _ => none
  | (k, v) :: rest, key => if k = key then some v else lookupKey rest key

/-- Property write `fields[key] = v`: overwrite in place keeps the key's
position (JS enumeration order), a fresh key is appended. -/
def insertKey : JSObj → String → JSValue → JSObj
  | [], key, v => [(key, v)]
  | (k, w) :: rest, key, v =>
    if k = key then (k, v) :: rest else (k, w) :: insertKey rest key v

/-- Property deletion `delete fields[key]`. -/
def removeKey : JSObj → String → JSObj
  | [], _ => []
  | (k, w) :: rest, key =>
    if k = key then removeKey rest key else (k, w) :: removeKey rest key

/-- Property access `v.key` on an arbitrary value: on a non-object primitive
the program's keys (`firstName`, `lastName`, `address`) are never own
properties, so the access yields `undefined`. -/
def getProp : JSValue → String → Option JSValue
  | .obj fs, key => lookupKey fs key
  | _, _ => none

/-- JavaScript `typeof v === 'object'` for the values this model can hold. -/
def isObjVal : JSValue → Bool
  | .obj _ => true
  | _ => false

/-- JavaScript truthiness of a value (used by `if (additional_info?.address)`). -/
def truthy : JSValue → Bool
  | .str s => !(s = "")
  | .num n => !(n = 0)
  | .nan => false
  | .obj _ => true

/-- JavaScript string conversion used by template literals. -/
def jsValToString : Option JSValue → String
  | none => "undefined"
  | some (.str s) => s
  | some (.num n) => toString n
  | some .nan => "NaN"
  | some (.obj _) => "[object Object]"

/-! ### JavaScript numeric builtins on strings

`convertRowToObject` and `setNestedProperty` call `isNaN(value)` (which
coerces the string with `Number(...)`) and `parseInt(value)` /
`parseInt(value, 10)`. Both builtins skip surrounding whitespace; every
call site in the source passes an already `.trim()`-ed string, so the
models below take the input as is. -/

/-- Drop one leading sign character, as both `Number` and `parseInt` allow. -/
def stripSign (cs : List Char) : List Char :=
  match cs with
  | [] => []
  | c :: t => if c = '+' ∨ c = '-' then t else c :: t

/-- Hexadecimal digit, as accepted after a `0x` prefix. -/
def isHexDigitChar (c : Char) : Bool :=
  c.isDigit || ('a' ≤ c && c ≤ 'f') || ('A' ≤ c && c ≤ 'F')

/-- Octal digit, as accepted after a `0o` prefix. -/
def isOctDigitChar (c : Char) : Bool := '0' ≤ c && c ≤ '7'

/-- Binary digit, as accepted after a `0b` prefix. -/
def isBinDigitChar (c : Char) : Bool := c = '0' || c = '1'

/-- Exponent part of a decimal literal: empty, or `e`/`E`, optional sign,
then at least one digit and nothing else. -/
def expPartOk : List Char → Bool
  | [] => true
  | e :: t =>
    (e = 'e' || e = 'E') &&
      (let t1 := stripSign t
       !t1.isEmpty && t1.all Char.isDigit)

/-- Fraction and exponent part of a decimal literal, after the integer
digits `d1` have been scanned off; the argument is the remaining input. -/
def decimalFracExp (d1 : List Char) : List Char → Bool
  | [] => !d1.isEmpty && expPartOk []
  | c :: t =>
    if c = '.' then
      (!d1.isEmpty || !(t.takeWhile Char.isDigit).isEmpty) &&
        expPartOk (t.dropWhile Char.isDigit)
    else !d1.isEmpty && expPartOk (c :: t)

/-- Signed decimal body of ECMAScript `StrDecimalLiteral` (sign already
stripped): `Infinity`, or digits with optional fraction and exponent. -/
def decimalBodyOk (cs : List Char) : Bool :=
  if cs = "Infinity".toList then true
  else decimalFracExp (cs.takeWhile Char.isDigit) (cs.dropWhile Char.isDigit)

/-- Case of a literal starting with `0`: a `0x`/`0o`/`0b` radix literal, or
an ordinary decimal (a leading `0` is no sign, so there is nothing to
strip). The argument is everything after the leading `0`. -/
def jsLeadingZeroNum : List Char → Bool
  | [] => decimalBodyOk ['0']
  | c1 :: rest =>
    if c1 = 'x' ∨ c1 = 'X' then !rest.isEmpty && rest.all isHexDigitChar
    else if c1 = 'o' ∨ c1 = 'O' then !rest.isEmpty && rest.all isOctDigitChar
    else if c1 = 'b' ∨ c1 = 'B' then !rest.isEmpty && rest.all isBinDigitChar
    else decimalBodyOk ('0' :: c1 :: rest)

/-- Character-level string-to-number grammar. -/
def jsIsNumericChars : List Char → Bool
  | [] => true
  | c0 :: rest0 =>
    if c0 = '0' then jsLeadingZeroNum rest0
    else decimalBodyOk (stripSign (c0 :: rest0))

/-- Whether `Number(s)` yields a non-`NaN` value, for a trimmed string `s`
(ECMAScript string-to-number grammar: empty string is `0`; otherwise a
signed decimal/`Infinity` literal or an unsigned `0x`/`0o`/`0b` literal). -/
def jsIsNumericString (s : String) : Bool := jsIsNumericChars s.toList

/-- JavaScript `isNaN(s)` for a (trimmed) string argument. -/
def jsIsNaN (s : String) : Bool := !jsIsNumericString s

/-- Value of a list of decimal digits. -/
def digitsToNat (ds : List Char) : Nat :=
  ds.foldl (fun a c => a * 10 + (c.toNat - 48)) 0

/-- Value of a list of hexadecimal digits. -/
def hexToNat (ds : List Char) : Nat :=
  ds.foldl
    (fun a c =>
      a * 16 +
        (if c.isDigit then c.toNat - 48
         else if 'a' ≤ c then c.toNat - 87
         else c.toNat - 55))
    0

/-- JavaScript `parseInt` on a trimmed string: optional sign, then (when no
radix argument is given, `allowHex = true`) an optional `0x` prefix with
hex digits, else the longest decimal-digit prefix; `none` models `NaN`.
Trailing garbage is ignored, as `parseInt` does. -/
def jsParseIntFrom (allowHex : Bool) (sign : Int) (cs1 : List Char) : Option Int :=
  if allowHex = true ∧ cs1.head? = some '0' ∧
      ((cs1.drop 1).head? = some 'x' ∨ (cs1.drop 1).head? = some 'X') then
    let hs := (cs1.drop 2).takeWhile isHexDigitChar
    if hs.isEmpty then none else some (sign * (hexToNat hs : Int))
  else
    let ds := cs1.takeWhile Char.isDigit
    if ds.isEmpty then none else some (sign * (digitsToNat ds : Int))

/-- See `jsParseIntFrom`: determine the sign, strip it, and scan. -/
def jsParseIntCore (allowHex : Bool) (s : String) : Option Int :=
  jsParseIntFrom allowHex (if s.toList.head? = some '-' then -1 else 1)
    (stripSign s.toList)

/-- `parseInt(s)` with no radix argument (used by the age validation). -/
def jsParseIntNoRadix : String → Option Int := jsParseIntCore true

/-- `parseInt(s, 10)` (used by the leaf coercion in `setNestedProperty`). -/
def jsParseInt10 : String → Option Int := jsParseIntCore false

/-! ### String helpers

The embedding uses its own structurally recursive versions of `trim` and
`split` so that every definition evaluates by kernel reduction. -/

/-- Characters removed by JavaScript `String.prototype.trim` (the usual
whitespace; the program's CSV content only contains ASCII whitespace). -/
def trimChars (cs : List Char) : List Char :=
  ((cs.dropWhile Char.isWhitespace).reverse.dropWhile Char.isWhitespace).reverse

/-- JavaScript `s.trim()`. -/
def jsTrim (s : String) : String := String.mk (trimChars s.toList)

/-- Accumulating scan for `path.split('.')`. -/
def splitPathAux : List Char → List Char → List String
  | [], cur => [String.mk cur.reverse]
  | c :: rest, cur =>
    if c = '.' then String.mk cur.reverse :: splitPathAux rest []
    else splitPathAux rest (c :: cur)

/-- JavaScript `path.split('.')`: always returns at least one segment;
`"a..b"` yields an empty middle segment, `""` yields `[""]`. -/
def splitPath (s : String) : List String := splitPathAux s.toList []

/-! ### Row tokenizer (`CSVParser.parseCSVLine`) -/

/-- Scan state of `parseCSVLine`: remaining input, `insideQuotes` flag,
current field characters, fields emitted so far. Mirrors the `while` loop
of the source: a `"` inside quotes followed by another `"` emits a literal
quote and advances two characters; otherwise a `"` toggles the quote flag;
a `,` outside quotes ends the current field (trimmed); any other character
is appended. The final field is always flushed. -/
def parseCSVLineAux (cs : List Char) (insideQuotes : Bool)
    (current : List Char) (values : List String) : List String :=
  match cs with
  | [] => values ++ [jsTrim (String.mk current)]
  | c :: rest =>
    if c = '"' then
      if insideQuotes then
        match rest with
        | '"' :: rest2 => parseCSVLineAux rest2 true (current ++ ['"']) values
        | [] => parseCSVLineAux [] false current values
        | c2 :: rest2 => parseCSVLineAux (c2 :: rest2) false current values
      else parseCSVLineAux rest true current values
    else if c = ',' ∧ insideQuotes = false then
      parseCSVLineAux rest false [] (values ++ [jsTrim (String.mk current)])
    else parseCSVLineAux rest insideQuotes (current ++ [c]) values

/-- `CSVParser.parseCSVLine`: split one line into trimmed field strings. -/
def parseCSVLine (line : String) : List String :=
  parseCSVLineAux line.toList false [] []

/-! ### Header validation and row materialization -/

/-- `CSVParser.mandatoryFields`. -/
def mandatoryFields : List String := ["name.firstName", "name.lastName", "age"]

/-- `CSVParser.validateMandatoryFields`: error listing the missing paths. -/
def validateMandatoryFields (headers : List String) : Except String Unit :=
  let missingFields := mandatoryFields.filter (fun field => !headers.contains field)
  if missingFields.isEmpty then .ok ()
  else .error ("Missing mandatory fields: " ++ String.intercalate ", " missingFields)

/-- Leaf assignment of `setNestedProperty`: a numeric string under the key
`age` is stored as `parseInt(value, 10)` (which can itself be `NaN` when
`isNaN(value)` and `parseInt` disagree), anything else stays a string. -/
def coerceLeaf (lastKey value : String) : JSValue :=
  if lastKey = "age" ∧ jsIsNaN value = false then
    match jsParseInt10 value with
    | some n => .num n
    | none => .nan
  else .str value

/-- Recursive core of `CSVParser.setNestedProperty` over the split path:
walk intermediate keys, replacing a missing key or a non-object value with
a fresh empty object (the structural-conflict rule of the source), then
assign the coerced leaf at the last key. -/
def setNestedGo (value : String) : JSObj → List String → JSObj
  | fields, [] => fields
  | fields, [k] => insertKey fields k (coerceLeaf k value)
  | fields, k :: k2 :: ks =>
    let sub :=
      match lookupKey fields k with
      | some (.obj sf) => sf
      | _ => []
    insertKey fields k (.obj (setNestedGo value sub (k2 :: ks)))

/-- `CSVParser.setNestedProperty obj path value` (functional: returns the
updated object). -/
def setNestedProperty (fields : JSObj) (path value : String) : JSObj :=
  setNestedGo value fields (splitPath path)

/-- Message of the `TypeError` raised by `values[i].trim()` when the row has
fewer values than the header has columns. -/
def undefinedTrimMessage : String :=
  "Cannot read properties of undefined (reading 'trim')"

/-- The age validation of `convertRowToObject`:
`value === '' || isNaN(value) || parseInt(value) < 0`. -/
def ageInvalid (value : String) : Bool :=
  (value = "") || jsIsNaN value ||
    (match jsParseIntNoRadix value with
     | some n => decide (n < 0)
     | none => false)

/-- Error message thrown for an invalid age value. -/
def ageErrorMessage (value : String) : String :=
  "Invalid age value: \"" ++ value ++ "\". Age must be a valid positive number."

/-- Loop body of `CSVParser.convertRowToObject`: headers and values are
consumed in lockstep (the source indexes `values[i]` for each header
index `i`; the tokenizer always yields a dense array, so a missing index
is exactly the case of the value list running out, which raises the
`TypeError` of `undefined.trim()`). Mandatory paths are routed into the
result, all other paths into the `additionalInfo` bag; an `age` header is
validated first. -/
def convertRows : List String → List String → JSObj → JSObj → Except String JSObj
  | [], _, result, addInfo =>
    .ok (if addInfo.isEmpty then result
         else insertKey result "additional_info" (.obj addInfo))
  | _ :: _, [], _, _ => .error undefinedTrimMessage
  | h :: hs, v :: vs, result, addInfo =>
    let header := jsTrim h
    let value := jsTrim v
    if mandatoryFields.contains header then
      if header = "age" ∧ ageInvalid value = true then .error (ageErrorMessage value)
      else convertRows hs vs (setNestedProperty result header value) addInfo
    else convertRows hs vs result (setNestedProperty addInfo header value)

/-- `CSVParser.convertRowToObject`. -/
def convertRowToObject (headers values : List String) : Except String JSObj :=
  convertRows headers values [] []

/-! ### Transactional batch writer (`DatabaseService.uploadUsersBatch`) -/

/-- A row of the destination table `public.users` (the generated `id` and
`created_at` columns are omitted). `none` models SQL `NULL` (node-pg sends
`null` for a JS `undefined`/`null` parameter). -/
structure DBRow where
  name : String
  age : Option JSValue
  address : Option JSValue
  additional_info : Option JSValue

/-- Mapping of one record inside the `for (const userData of usersData)`
loop of `uploadUsersBatch`: destructure `name`, `age`, `additional_info`;
extract a truthy `additional_info?.address` into the `address` column and
delete it from the spread copy; build `fullName` (this is the only step
that can throw: `name.firstName` on an `undefined` name); a remaining
non-empty `additional_info` object is kept, else `NULL`. The spread
`{ ...additional_info }` of a missing or non-object value gives an empty
object (the parser only ever stores an object there). -/
def mapRecord (r : JSObj) : Except String DBRow :=
  let nameVal := lookupKey r "name"
  let ageVal := lookupKey r "age"
  let aiVal := lookupKey r "additional_info"
  let aiFields : JSObj :=
    match aiVal with
    | some (.obj fs) => fs
    | _ => []
  let addrOpt : Option JSValue :=
    match aiVal with
    | some v => getProp v "address"
    | none => none
  match nameVal with
  | none => .error "Cannot read properties of undefined (reading 'firstName')"
  | some nv =>
    let fullName :=
      jsValToString (getProp nv "firstName") ++ " " ++ jsValToString (getProp nv "lastName")
    match addrOpt with
    | some a =>
      if truthy a then
        let fs := removeKey aiFields "address"
        .ok ⟨fullName, ageVal, some a, if fs.isEmpty then none else some (.obj fs)⟩
      else
        .ok ⟨fullName, ageVal, none, if aiFields.isEmpty then none else some (.obj aiFields)⟩
    | none =>
      .ok ⟨fullName, ageVal, none, if aiFields.isEmpty then none else some (.obj aiFields)⟩

/-- The value-building loop of `uploadUsersBatch`: stops at the first
record whose mapping throws. -/
def mapRecords : List JSObj → Except String (List DBRow)
  | [] => .ok []
  | r :: rs =>
    match mapRecord r with
    | .error e => .error e
    | .ok row =>
      match mapRecords rs with
      | .error e => .error e
      | .ok rows => .ok (row :: rows)

/-- `DatabaseService.uploadUsersBatch` against an explicit store:
`BEGIN`; build the multi-row `INSERT` values (a mapping exception aborts
and rolls back); run the `INSERT` (whose success is decided by the
external store, here the flag `insertFails`) and `COMMIT`, or `ROLLBACK`
on failure. On any error the store is unchanged and the error is
re-thrown to the caller. -/
def uploadUsersBatch (store : List DBRow) (usersData : List JSObj)
    (insertFails : Bool) : Except String (List DBRow) :=
  match mapRecords usersData with
  | .error e => .error e
  | .ok rows => if insertFails then .error "batch insert failed" else .ok (store ++ rows)

/-! ### Pipeline driver

State of one `POST /api/process-csv` run: the parser-side state of
`parseCSVFile` (`headers`, `batch`, `totalProcessed`, `totalErrors`,
`currLine`, the error log file) together with the app-side state of the
`onBatch` callback (`store`, its own `totalProcessed`/`totalErrors`,
called `appProcessed`/`appErrors` here). `flushed` records every batch
handed to `onBatch`, in order. -/
structure RunState where
  headers : Option (List String)
  batch : List JSObj
  totalProcessed : Nat
  totalErrors : Nat
  currLine : Nat
  errorLog : List (Nat × String)
  flushed : List (List JSObj)
  store : List DBRow
  appProcessed : Nat
  appErrors : Nat

/-- `batchSize` of both `CSVParser` and `DatabaseService`. -/
def batchSize : Nat := 1000

/-- One flush: `await onBatch(batch)` — the app callback runs
`uploadUsersBatch` and catches its failure, counting the whole batch as
errors (success adds it to the app's processed count) — followed by the
parser's unconditional `totalProcessed += batch.length; batch = []`.
The oracle `dbFails` is indexed by the flush's position in the run. -/
def flushBatch (dbFails : Nat → Bool) (s : RunState) (bt : List JSObj) : RunState :=
  match uploadUsersBatch s.store bt (dbFails s.flushed.length) with
  | .ok store' =>
    { s with store := store', appProcessed := s.appProcessed + bt.length,
             flushed := s.flushed ++ [bt], batch := [],
             totalProcessed := s.totalProcessed + bt.length }
  | .error _ =>
    { s with appErrors := s.appErrors + bt.length,
             flushed := s.flushed ++ [bt], batch := [],
             totalProcessed := s.totalProcessed + bt.length }

/-- The `readL.on('line')` handler of `parseCSVFile`: count the line; the
first line is tokenized, assigned to `headers` and then validated (a
validation failure is caught by the same per-line `catch`, which counts
it and appends `Line <n>: <message>` to the error log — `headers` keeps
its new value); further lines are skipped when blank, otherwise
tokenized and materialized; a materialization error is caught, counted
and logged; a materialized record joins the batch, which is flushed once
it reaches `batchSize`. -/
def processLine (dbFails : Nat → Bool) (s : RunState) (line : String) : RunState :=
  let s1 := { s with currLine := s.currLine + 1 }
  match s1.headers with
  | none =>
    let hs := parseCSVLine line
    match validateMandatoryFields hs with
    | .ok _ => { s1 with headers := some hs }
    | .error e =>
      { s1 with headers := some hs, totalErrors := s1.totalErrors + 1,
                errorLog := s1.errorLog ++ [(s1.currLine, e)] }
  | some hs =>
    if jsTrim line = "" then s1
    else
      match convertRowToObject hs (parseCSVLine line) with
      | .error e =>
        { s1 with totalErrors := s1.totalErrors + 1,
                  errorLog := s1.errorLog ++ [(s1.currLine, e)] }
      | .ok r =>
        let batch' := s1.batch ++ [r]
        if batchSize ≤ batch'.length then flushBatch dbFails { s1 with batch := batch' } batch'
        else { s1 with batch := batch' }

/-- The `readL.on('close')` handler: a non-empty remaining batch is
flushed once. -/
def finishRun (dbFails : Nat → Bool) (s : RunState) : RunState :=
  if s.batch.isEmpty then s else flushBatch dbFails s s.batch

/-- State at the start of a run: `app.js` deletes the previous error log
and truncates the `users` table before parsing, so the log and the store
begin empty. -/
def initState : RunState := ⟨none, [], 0, 0, 0, [], [], [], 0, 0⟩

/-- One full run of the `POST /api/process-csv` handler over the file's
lines. -/
def runCSV (dbFails : Nat → Bool) (lines : List String) : RunState :=
  finishRun dbFails (lines.foldl (processLine dbFails) initState)

/-- `recordsProcessed` of the response: the app-side success count. -/
def recordsProcessed (s : RunState) : Nat := s.appProcessed

/-- `errors` of the response: `result.totalErrors + totalErrors`, the
parser's row errors plus the app-side failed-batch tally. -/
def runErrors (s : RunState) : Nat := s.totalErrors + s.appErrors

/-! ### Specification functions for the batch-write contract -/

/-- Outcome of the `i`-th flushed batch: its inserted rows on success,
`none` when the mapping threw or the `INSERT` failed. -/
def batchOutcome (dbFails : Nat → Bool) (i : Nat) (b : List JSObj) : Option (List DBRow) :=
  match mapRecords b with
  | .error _ => none
  | .ok rows => if dbFails i then none else some rows

/-- Rows persisted by the batches of `bs` when the first of them has flush
index `i`: exactly the successful batches' rows, in flush order. -/
def storeOfFlushed (dbFails : Nat → Bool) : Nat → List (List JSObj) → List DBRow
  | _, [] => []
  | i, b :: bs =>
    (batchOutcome dbFails i b).getD [] ++ storeOfFlushed dbFails (i + 1) bs

/-- Records counted as processed: sizes of the successful batches. -/
def processedOfFlushed (dbFails : Nat → Bool) : Nat → List (List JSObj) → Nat
  | _, [] => 0
  | i, b :: bs =>
    (if (batchOutcome dbFails i b).isSome then b.length else 0)
      + processedOfFlushed dbFails (i + 1) bs

/-- Records counted as batch-level errors: sizes of the failed batches. -/
def failedOfFlushed (dbFails : Nat → Bool) : Nat → List (List JSObj) → Nat
  | _, [] => 0
  | i, b :: bs =>
    (if (batchOutcome dbFails i b).isSome then 0 else b.length)
      + failedOfFlushed dbFails (i + 1) bs

/-- Sample data used by the concrete end-to-end runs. -/
def sampleHeaderLine : String := "name.firstName,name.lastName,age"

/-- Tokenized sample header. -/
def sampleHeader : List String := ["name.firstName", "name.lastName", "age"]

/-- The sample data row of the spec's end-to-end scenario. -/
def rohitLine : String := "Rohit,Prasad,35"

/-- Record materialized from `rohitLine` under `sampleHeader`. -/
def rohitRecord : JSObj :=
  [("name", .obj [("firstName", .str "Rohit"), ("lastName", .str "Prasad")]),
   ("age", .num 35)]

/-- Table row persisted for `rohitRecord`. -/
def rohitRow : DBRow := ⟨"Rohit Prasad", some (.num 35), none, none⟩

/-- Non-empty all-decimal-digit strings: the spec's "non-empty string
parseable as an integer ≥ 0". -/
def isNonNegIntegerString (s : String) : Bool :=
  !s.toList.isEmpty && s.toList.all Char.isDigit

/-! ## Helper lemmas -/

theorem takeWhile_all_eq {p : Char → Bool} :
    ∀ {l : List Char}, l.all p = true → l.takeWhile p = l ∧ l.dropWhile p = [] := by
  intro l
  induction l with
  | nil => intro _; exact ⟨rfl, rfl⟩
  | cons c cs ih =>
    intro h
    rw [List.all_cons, Bool.and_eq_true] at h
    rw [List.takeWhile_cons, List.dropWhile_cons, if_pos h.1, if_pos h.1]
    exact ⟨by rw [(ih h.2).1], (ih h.2).2⟩

theorem stripSign_of_digit {c : Char} (cs : List Char) (h : c.isDigit = true) :
    stripSign (c :: cs) = c :: cs := by
  show (if c = '+' ∨ c = '-' then cs else c :: cs) = c :: cs
  rw [if_neg]
  rintro (h1 | h1) <;> rw [h1] at h <;> exact absurd h (by decide)

theorem decimalBodyOk_of_digits :
    ∀ cs : List Char, cs ≠ [] → cs.all Char.isDigit = true → decimalBodyOk cs = true := by
  intro cs hne hall
  rw [decimalBodyOk]
  rw [if_neg (by intro heq; rw [heq] at hall; exact absurd hall (by decide))]
  rw [(takeWhile_all_eq hall).1, (takeWhile_all_eq hall).2]
  rw [decimalFracExp]
  cases cs with
  | nil => exact absurd rfl hne
  | cons c t => simp [expPartOk]

theorem jsIsNumericChars_of_digits :
    ∀ cs : List Char, cs ≠ [] → cs.all Char.isDigit = true →
      jsIsNumericChars cs = true := by
  intro cs hne hall
  cases cs with
  | nil => exact absurd rfl hne
  | cons c0 rest0 =>
    rw [List.all_cons, Bool.and_eq_true] at hall
    obtain ⟨h0, hrest⟩ := hall
    have hdec : decimalBodyOk (c0 :: rest0) = true :=
      decimalBodyOk_of_digits _ (by simp) (by rw [List.all_cons, h0, hrest]; rfl)
    rw [jsIsNumericChars]
    by_cases hc0 : c0 = '0'
    · rw [if_pos hc0]
      cases rest0 with
      | nil => rw [jsLeadingZeroNum, ← hc0]; exact hdec
      | cons c1 rest =>
        rw [List.all_cons, Bool.and_eq_true] at hrest
        have hx : ¬(c1 = 'x' ∨ c1 = 'X') := by
          rintro (h1 | h1) <;> rw [h1] at hrest <;> exact absurd hrest.1 (by decide)
        have ho : ¬(c1 = 'o' ∨ c1 = 'O') := by
          rintro (h1 | h1) <;> rw [h1] at hrest <;> exact absurd hrest.1 (by decide)
        have hb : ¬(c1 = 'b' ∨ c1 = 'B') := by
          rintro (h1 | h1) <;> rw [h1] at hrest <;> exact absurd hrest.1 (by decide)
        rw [jsLeadingZeroNum, if_neg hx, if_neg ho, if_neg hb, ← hc0]
        exact hdec
    · rw [if_neg hc0, stripSign_of_digit _ h0]
      exact hdec

theorem jsIsNumericString_of_digits (s : String)
    (h : isNonNegIntegerString s = true) : jsIsNumericString s = true := by
  rw [isNonNegIntegerString, Bool.and_eq_true, Bool.not_eq_true'] at h
  obtain ⟨hne, hall⟩ := h
  rw [jsIsNumericString]
  exact jsIsNumericChars_of_digits _ (by simpa using hne) hall

theorem jsParseIntNoRadix_of_digits (s : String)
    (h : isNonNegIntegerString s = true) :
    jsParseIntNoRadix s = some ((digitsToNat s.toList : Nat) : Int) := by
  rw [isNonNegIntegerString, Bool.and_eq_true, Bool.not_eq_true'] at h
  obtain ⟨hne, hall⟩ := h
  rw [jsParseIntNoRadix, jsParseIntCore]
  rcases hl : s.toList with _ | ⟨c0, rest0⟩
  · rw [hl] at hne; exact absurd hne (by decide)
  · rw [hl] at hall
    rw [List.all_cons, Bool.and_eq_true] at hall
    obtain ⟨h0, hrest⟩ := hall
    have hallc : (c0 :: rest0).all Char.isDigit = true := by
      rw [List.all_cons, h0, hrest]; rfl
    rw [stripSign_of_digit _ h0, List.head?_cons]
    rw [if_neg (by
      intro hsgn
      rw [Option.some.injEq] at hsgn
      rw [hsgn] at h0; exact absurd h0 (by decide))]
    rw [jsParseIntFrom]
    rw [if_neg (by
      rintro ⟨-, -, hx | hx⟩ <;>
        · rw [List.drop_one, List.tail_cons] at hx
          cases rest0 with
          | nil => exact absurd hx (by simp)
          | cons c1 r =>
            rw [List.all_cons, Bool.and_eq_true] at hrest
            rw [List.head?_cons, Option.some.injEq] at hx
            rw [hx] at hrest
            exact absurd hrest.1 (by decide))]
    rw [(takeWhile_all_eq hallc).1]
    rw [if_neg (by simp)]
    rw [one_mul]

theorem ageInvalid_of_digits (s : String)
    (h : isNonNegIntegerString s = true) : ageInvalid s = false := by
  have hne : ¬(s = "") := by
    intro he
    rw [he] at h
    exact absurd h (by decide)
  have hnum := jsIsNumericString_of_digits s h
  have hpi := jsParseIntNoRadix_of_digits s h
  have hk : ¬((digitsToNat s.toList : Nat) : Int) < 0 := by omega
  rw [ageInvalid, hpi, jsIsNaN, hnum]
  simp [hne, hk]

theorem lookupKey_insertKey (fields : JSObj) (k : String) (v : JSValue) :
    lookupKey (insertKey fields k v) k = some v := by
  induction fields with
  | nil => simp [insertKey, lookupKey]
  | cons p rest ih =>
    obtain ⟨k1, w1⟩ := p
    by_cases hk : k1 = k
    · rw [insertKey, if_pos hk, lookupKey, if_pos hk]
    · rw [insertKey, if_neg hk, lookupKey, if_neg hk]
      exact ih

theorem parseCSVLineAux_length (cs : List Char) (q : Bool) (cur : List Char)
    (vals : List String) :
    vals.length + 1 ≤ (parseCSVLineAux cs q cur vals).length := by
  induction cs, q, cur, vals using parseCSVLineAux.induct with
  | case1 q cur vals => simp [parseCSVLineAux]
  | _ =>
    first
      | (simp_all [parseCSVLineAux] <;> omega)
      | (rw [parseCSVLineAux.eq_def]
         simp_all only []
         split <;> simp_all <;> omega)

theorem convertRows_age_error :
    ∀ (hpre vpre hpost vpost : List String) (v : String) (res ai : JSObj),
      hpre.length = vpre.length →
      (∀ h ∈ hpre, jsTrim h ≠ "age") →
      ageInvalid (jsTrim v) = true →
      convertRows (hpre ++ "age" :: hpost) (vpre ++ v :: vpost) res ai
        = .error (ageErrorMessage (jsTrim v)) := by
  intro hpre
  induction hpre with
  | nil =>
    intro vpre hpost vpost v res ai hlen hne hinv
    have hv : vpre = [] := List.length_eq_zero.mp hlen.symm
    subst hv
    simp only [List.nil_append, convertRows]
    rw [if_pos (show mandatoryFields.contains (jsTrim "age") = true from rfl)]
    rw [if_pos ⟨rfl, hinv⟩]
  | cons h hpre ih =>
    intro vpre hpost vpost v res ai hlen hne hinv
    cases vpre with
    | nil => simp at hlen
    | cons v1 vpre =>
      simp only [List.cons_append, convertRows]
      have hh : jsTrim h ≠ "age" := hne h (by simp)
      have hne2 : ∀ h2 ∈ hpre, jsTrim h2 ≠ "age" := fun h2 hm => hne h2 (by simp [hm])
      have hlen2 : hpre.length = vpre.length := by simpa using hlen
      by_cases hcont : mandatoryFields.contains (jsTrim h) = true
      · rw [if_pos hcont, if_neg (fun hand => hh hand.1)]
        exact ih vpre hpost vpost v _ _ hlen2 hne2 hinv
      · rw [if_neg hcont]
        exact ih vpre hpost vpost v _ _ hlen2 hne2 hinv

theorem convertRows_ok :
    ∀ (hs vs : List String) (res ai : JSObj),
      hs.length ≤ vs.length →
      (∀ p ∈ hs.zip vs, jsTrim p.1 = "age" → isNonNegIntegerString (jsTrim p.2) = true) →
      ∃ r, convertRows hs vs res ai = .ok r := by
  intro hs
  induction hs with
  | nil => intro vs res ai _ _; exact ⟨_, rfl⟩
  | cons h hs ih =>
    intro vs res ai hlen hzip
    cases vs with
    | nil => simp at hlen
    | cons v vs =>
      simp only [convertRows]
      have hztail : ∀ p ∈ hs.zip vs, jsTrim p.1 = "age" →
          isNonNegIntegerString (jsTrim p.2) = true := by
        intro p hp
        exact hzip p (by simp [List.zip_cons_cons, hp])
      have hlen2 : hs.length ≤ vs.length := by simpa using hlen
      by_cases hage : jsTrim h = "age"
      · have hdig : isNonNegIntegerString (jsTrim v) = true :=
          hzip (h, v) (by simp [List.zip_cons_cons]) hage
        have hinv := ageInvalid_of_digits _ hdig
        have hcont : mandatoryFields.contains (jsTrim h) = true := by
          rw [hage]; rfl
        rw [if_pos hcont, if_neg (by
          rintro ⟨-, h2⟩
          rw [hinv] at h2
          exact absurd h2 (by decide))]
        exact ih vs _ _ hlen2 hztail
      · by_cases hcont : mandatoryFields.contains (jsTrim h) = true
        · rw [if_pos hcont, if_neg (fun hand => hage hand.1)]
          exact ih vs _ _ hlen2 hztail
        · rw [if_neg hcont]
          exact ih vs _ _ hlen2 hztail

theorem convertRows_short :
    ∀ (hs vs : List String) (res ai : JSObj),
      vs.length < hs.length →
      ∃ e, convertRows hs vs res ai = .error e := by
  intro hs
  induction hs with
  | nil => intro vs res ai h; simp at h
  | cons h hs ih =>
    intro vs res ai hlen
    cases vs with
    | nil => exact ⟨undefinedTrimMessage, rfl⟩
    | cons v vs =>
      simp only [convertRows]
      have hlen2 : vs.length < hs.length := by simpa using hlen
      by_cases hcont : mandatoryFields.contains (jsTrim h) = true
      · rw [if_pos hcont]
        by_cases hage : jsTrim h = "age" ∧ ageInvalid (jsTrim v) = true
        · rw [if_pos hage]; exact ⟨_, rfl⟩
        · rw [if_neg hage]; exact ih vs _ _ hlen2
      · rw [if_neg hcont]; exact ih vs _ _ hlen2

theorem mapRecords_replicate (n : Nat) :
    mapRecords (List.replicate n rohitRecord) = .ok (List.replicate n rohitRow) := by
  induction n with
  | zero => rfl
  | succ n ih =>
    rw [List.replicate_succ, mapRecords,
      show mapRecord rohitRecord = .ok rohitRow from rfl, ih]
    rfl

theorem processLine_rohit_step (f : Nat → Bool) (b : List JSObj) (tp te cl ap ae : Nat)
    (elog : List (Nat × String)) (fl : List (List JSObj)) (st : List DBRow)
    (hb : b.length + 1 < 1000) :
    processLine f ⟨some sampleHeader, b, tp, te, cl, elog, fl, st, ap, ae⟩ rohitLine
      = ⟨some sampleHeader, b ++ [rohitRecord], tp, te, cl + 1, elog, fl, st, ap, ae⟩ := by
  show (if batchSize ≤ (b ++ [rohitRecord]).length then
          flushBatch f ⟨some sampleHeader, b ++ [rohitRecord], tp, te, cl + 1, elog, fl, st, ap, ae⟩
            (b ++ [rohitRecord])
        else ⟨some sampleHeader, b ++ [rohitRecord], tp, te, cl + 1, elog, fl, st, ap, ae⟩) = _
  rw [if_neg (by simp only [batchSize, List.length_append, List.length_cons, List.length_nil]; omega)]

theorem processLine_rohit_flush (f : Nat → Bool) (b : List JSObj) (tp te cl ap ae : Nat)
    (elog : List (Nat × String)) (fl : List (List JSObj)) (st : List DBRow)
    (hb : b.length + 1 = 1000) :
    processLine f ⟨some sampleHeader, b, tp, te, cl, elog, fl, st, ap, ae⟩ rohitLine
      = flushBatch f ⟨some sampleHeader, b ++ [rohitRecord], tp, te, cl + 1, elog, fl, st, ap, ae⟩
          (b ++ [rohitRecord]) := by
  show (if batchSize ≤ (b ++ [rohitRecord]).length then
          flushBatch f ⟨some sampleHeader, b ++ [rohitRecord], tp, te, cl + 1, elog, fl, st, ap, ae⟩
            (b ++ [rohitRecord])
        else ⟨some sampleHeader, b ++ [rohitRecord], tp, te, cl + 1, elog, fl, st, ap, ae⟩) = _
  rw [if_pos (by simp only [batchSize, List.length_append, List.length_cons, List.length_nil]; omega)]

theorem foldl_rohit_noflush :
    ∀ (n : Nat) (f : Nat → Bool) (b : List JSObj) (tp te cl ap ae : Nat)
      (elog : List (Nat × String)) (fl : List (List JSObj)) (st : List DBRow),
      b.length + n < 1000 →
      List.foldl (processLine f) ⟨some sampleHeader, b, tp, te, cl, elog, fl, st, ap, ae⟩
          (List.replicate n rohitLine)
        = ⟨some sampleHeader, b ++ List.replicate n rohitRecord, tp, te, cl + n,
           elog, fl, st, ap, ae⟩ := by
  intro n
  induction n with
  | zero =>
    intro f b tp te cl ap ae elog fl st hbn
    simp [RunState.mk.injEq]
  | succ n ih =>
    intro f b tp te cl ap ae elog fl st hbn
    rw [List.replicate_succ, List.foldl_cons,
      processLine_rohit_step f b tp te cl ap ae elog fl st (by omega)]
    rw [ih f (b ++ [rohitRecord]) tp te (cl + 1) ap ae elog fl st
      (by simp only [List.length_append, List.length_cons, List.length_nil]; omega)]
    simp only [List.append_assoc, List.singleton_append, ← List.replicate_succ]
    congr 1
    omega

theorem foldl_rohit_thousand (f : Nat → Bool) (tp te cl ap ae : Nat)
    (elog : List (Nat × String)) (fl : List (List JSObj)) (st : List DBRow) :
    List.foldl (processLine f) ⟨some sampleHeader, [], tp, te, cl, elog, fl, st, ap, ae⟩
        (List.replicate 1000 rohitLine)
      = flushBatch f
          ⟨some sampleHeader, List.replicate 1000 rohitRecord, tp, te, cl + 1000,
           elog, fl, st, ap, ae⟩
          (List.replicate 1000 rohitRecord) := by
  rw [show List.replicate 1000 rohitLine = List.replicate 999 rohitLine ++ [rohitLine] from by
    rw [← List.replicate_succ']]
  rw [List.foldl_append]
  rw [foldl_rohit_noflush 999 f [] tp te cl ap ae elog fl st (by simp)]
  rw [List.foldl_cons, List.foldl_nil]
  simp only [List.nil_append]
  rw [processLine_rohit_flush f (List.replicate 999 rohitRecord) tp te (cl + 999) ap ae elog fl st
    (by rw [List.length_replicate])]
  rw [show List.replicate 999 rohitRecord ++ [rohitRecord] = List.replicate 1000 rohitRecord from by
    rw [← List.replicate_succ']]

theorem flushBatch_rohit (f : Nat → Bool) (s : RunState) (n : Nat) :
    flushBatch f s (List.replicate n rohitRecord)
      = if f s.flushed.length then
          { s with appErrors := s.appErrors + n,
                   flushed := s.flushed ++ [List.replicate n rohitRecord], batch := [],
                   totalProcessed := s.totalProcessed + n }
        else
          { s with store := s.store ++ List.replicate n rohitRow,
                   appProcessed := s.appProcessed + n,
                   flushed := s.flushed ++ [List.replicate n rohitRecord], batch := [],
                   totalProcessed := s.totalProcessed + n } := by
  rw [flushBatch, uploadUsersBatch, mapRecords_replicate]
  cases hf : f s.flushed.length
  · simp [hf]
  · simp [hf]

theorem runCSV_2500_eq :
    runCSV (fun k => decide (k = 1)) (sampleHeaderLine :: List.replicate 2500 rohitLine)
      = ⟨some sampleHeader, [], 2500, 0, 2501, [],
         [List.replicate 1000 rohitRecord, List.replicate 1000 rohitRecord,
          List.replicate 500 rohitRecord],
         List.replicate 1000 rohitRow ++ List.replicate 500 rohitRow, 1500, 1000⟩ := by
  have e1 : List.foldl (processLine (fun k => decide (k = 1)))
      ⟨some sampleHeader, [], 0, 0, 1, [], [], [], 0, 0⟩ (List.replicate 1000 rohitLine)
      = ⟨some sampleHeader, [], 1000, 0, 1001, [], [List.replicate 1000 rohitRecord],
         List.replicate 1000 rohitRow, 1000, 0⟩ := by
    rw [foldl_rohit_thousand, flushBatch_rohit, if_neg (by decide)]
    rfl
  have e2 : List.foldl (processLine (fun k => decide (k = 1)))
      ⟨some sampleHeader, [], 1000, 0, 1001, [], [List.replicate 1000 rohitRecord],
       List.replicate 1000 rohitRow, 1000, 0⟩ (List.replicate 1000 rohitLine)
      = ⟨some sampleHeader, [], 2000, 0, 2001, [],
         [List.replicate 1000 rohitRecord, List.replicate 1000 rohitRecord],
         List.replicate 1000 rohitRow, 1000, 1000⟩ := by
    rw [foldl_rohit_thousand, flushBatch_rohit, if_pos (by decide)]
    rfl
  have e3 : List.foldl (processLine (fun k => decide (k = 1)))
      ⟨some sampleHeader, [], 2000, 0, 2001, [],
       [List.replicate 1000 rohitRecord, List.replicate 1000 rohitRecord],
       List.replicate 1000 rohitRow, 1000, 1000⟩ (List.replicate 500 rohitLine)
      = ⟨some sampleHeader, List.replicate 500 rohitRecord, 2000, 0, 2501, [],
         [List.replicate 1000 rohitRecord, List.replicate 1000 rohitRecord],
         List.replicate 1000 rohitRow, 1000, 1000⟩ := by
    rw [foldl_rohit_noflush 500 (fun k => decide (k = 1)) [] 2000 0 2001 1000 1000 []
      [List.replicate 1000 rohitRecord, List.replicate 1000 rohitRecord]
      (List.replicate 1000 rohitRow) (by simp)]
    rfl
  have e4 : finishRun (fun k => decide (k = 1))
      ⟨some sampleHeader, List.replicate 500 rohitRecord, 2000, 0, 2501, [],
       [List.replicate 1000 rohitRecord, List.replicate 1000 rohitRecord],
       List.replicate 1000 rohitRow, 1000, 1000⟩
      = ⟨some sampleHeader, [], 2500, 0, 2501, [],
         [List.replicate 1000 rohitRecord, List.replicate 1000 rohitRecord,
          List.replicate 500 rohitRecord],
         List.replicate 1000 rohitRow ++ List.replicate 500 rohitRow, 1500, 1000⟩ := by
    rw [finishRun, if_neg (by simp)]
    show flushBatch (fun k => decide (k = 1))
        ⟨some sampleHeader, List.replicate 500 rohitRecord, 2000, 0, 2501, [],
         [List.replicate 1000 rohitRecord, List.replicate 1000 rohitRecord],
         List.replicate 1000 rohitRow, 1000, 1000⟩ (List.replicate 500 rohitRecord) = _
    rw [flushBatch_rohit, if_neg (by decide)]
    rfl
  rw [runCSV, List.foldl_cons,
    show processLine (fun k => decide (k = 1)) initState sampleHeaderLine
      = ⟨some sampleHeader, [], 0, 0, 1, [], [], [], 0, 0⟩ from rfl]
  rw [show List.replicate 2500 rohitLine
      = List.replicate 1000 rohitLine ++ (List.replicate 1000 rohitLine ++ List.replicate 500 rohitLine) from by
    rw [← List.replicate_add, ← List.replicate_add]]
  rw [List.foldl_append, List.foldl_append, e1, e2, e3, e4]

theorem flushBatch_batch (f : Nat → Bool) (s : RunState) (bt : List JSObj) :
    (flushBatch f s bt).batch = [] := by
  cases hup : uploadUsersBatch s.store bt (f s.flushed.length) <;>
    simp [flushBatch, hup]

theorem flushBatch_flushed (f : Nat → Bool) (s : RunState) (bt : List JSObj) :
    (flushBatch f s bt).flushed = s.flushed ++ [bt] := by
  cases hup : uploadUsersBatch s.store bt (f s.flushed.length) <;>
    simp [flushBatch, hup]

theorem storeOfFlushed_snoc (f : Nat → Bool) :
    ∀ (bs : List (List JSObj)) (i : Nat) (b : List JSObj),
      storeOfFlushed f i (bs ++ [b])
        = storeOfFlushed f i bs ++ (batchOutcome f (i + bs.length) b).getD [] := by
  intro bs
  induction bs with
  | nil => intro i b; simp [storeOfFlushed]
  | cons b0 bs ih =>
    intro i b
    have e1 : storeOfFlushed f i ((b0 :: bs) ++ [b])
        = (batchOutcome f i b0).getD [] ++ storeOfFlushed f (i + 1) (bs ++ [b]) := rfl
    have e2 : storeOfFlushed f i (b0 :: bs)
        = (batchOutcome f i b0).getD [] ++ storeOfFlushed f (i + 1) bs := rfl
    rw [e1, e2, ih, List.length_cons, List.append_assoc,
      show i + (bs.length + 1) = i + 1 + bs.length from by omega]

theorem processedOfFlushed_snoc (f : Nat → Bool) :
    ∀ (bs : List (List JSObj)) (i : Nat) (b : List JSObj),
      processedOfFlushed f i (bs ++ [b])
        = processedOfFlushed f i bs +
            (if (batchOutcome f (i + bs.length) b).isSome then b.length else 0) := by
  intro bs
  induction bs with
  | nil => intro i b; simp [processedOfFlushed]
  | cons b0 bs ih =>
    intro i b
    have e1 : processedOfFlushed f i ((b0 :: bs) ++ [b])
        = (if (batchOutcome f i b0).isSome then b0.length else 0)
          + processedOfFlushed f (i + 1) (bs ++ [b]) := rfl
    have e2 : processedOfFlushed f i (b0 :: bs)
        = (if (batchOutcome f i b0).isSome then b0.length else 0)
          + processedOfFlushed f (i + 1) bs := rfl
    rw [e1, e2, ih, List.length_cons]
    rw [show i + (bs.length + 1) = i + 1 + bs.length from by omega]
    omega

theorem failedOfFlushed_snoc (f : Nat → Bool) :
    ∀ (bs : List (List JSObj)) (i : Nat) (b : List JSObj),
      failedOfFlushed f i (bs ++ [b])
        = failedOfFlushed f i bs +
            (if (batchOutcome f (i + bs.length) b).isSome then 0 else b.length) := by
  intro bs
  induction bs with
  | nil => intro i b; simp [failedOfFlushed]
  | cons b0 bs ih =>
    intro i b
    have e1 : failedOfFlushed f i ((b0 :: bs) ++ [b])
        = (if (batchOutcome f i b0).isSome then 0 else b0.length)
          + failedOfFlushed f (i + 1) (bs ++ [b]) := rfl
    have e2 : failedOfFlushed f i (b0 :: bs)
        = (if (batchOutcome f i b0).isSome then 0 else b0.length)
          + failedOfFlushed f (i + 1) bs := rfl
    rw [e1, e2, ih, List.length_cons]
    rw [show i + (bs.length + 1) = i + 1 + bs.length from by omega]
    omega

theorem flushBatch_accounting (f : Nat → Bool) (s : RunState) (bt : List JSObj)
    (h1 : s.store = storeOfFlushed f 0 s.flushed)
    (h2 : s.appProcessed = processedOfFlushed f 0 s.flushed)
    (h3 : s.appErrors = failedOfFlushed f 0 s.flushed) :
    (flushBatch f s bt).store = storeOfFlushed f 0 (flushBatch f s bt).flushed
    ∧ (flushBatch f s bt).appProcessed
        = processedOfFlushed f 0 (flushBatch f s bt).flushed
    ∧ (flushBatch f s bt).appErrors
        = failedOfFlushed f 0 (flushBatch f s bt).flushed := by
  have hsnoc := storeOfFlushed_snoc f s.flushed 0 bt
  have psnoc := processedOfFlushed_snoc f s.flushed 0 bt
  have fsnoc := failedOfFlushed_snoc f s.flushed 0 bt
  rw [Nat.zero_add] at hsnoc psnoc fsnoc
  cases hm : mapRecords bt with
  | error e =>
    have hout : batchOutcome f s.flushed.length bt = none := by
      rw [batchOutcome, hm]
    have hup : uploadUsersBatch s.store bt (f s.flushed.length) = .error e := by
      rw [uploadUsersBatch, hm]
    rw [flushBatch, hup]
    simp [hsnoc, psnoc, fsnoc, hout, h1, h2, h3]
  | ok rows =>
    cases hf : f s.flushed.length with
    | true =>
      have hout : batchOutcome f s.flushed.length bt = none := by
        rw [batchOutcome, hm]
        simp [hf]
      have hup : uploadUsersBatch s.store bt (f s.flushed.length)
          = .error "batch insert failed" := by
        rw [uploadUsersBatch, hm]
        simp [hf]
      rw [flushBatch, hup]
      simp [hsnoc, psnoc, fsnoc, hout, h1, h2, h3]
    | false =>
      have hout : batchOutcome f s.flushed.length bt = some rows := by
        rw [batchOutcome, hm]
        simp [hf]
      have hup : uploadUsersBatch s.store bt (f s.flushed.length)
          = .ok (s.store ++ rows) := by
        rw [uploadUsersBatch, hm]
        simp [hf]
      rw [flushBatch, hup]
      simp [hsnoc, psnoc, fsnoc, hout, h1, h2, h3]

theorem processLine_accounting (f : Nat → Bool) (s : RunState) (line : String)
    (h1 : s.store = storeOfFlushed f 0 s.flushed)
    (h2 : s.appProcessed = processedOfFlushed f 0 s.flushed)
    (h3 : s.appErrors = failedOfFlushed f 0 s.flushed) :
    (processLine f s line).store = storeOfFlushed f 0 (processLine f s line).flushed
    ∧ (processLine f s line).appProcessed
        = processedOfFlushed f 0 (processLine f s line).flushed
    ∧ (processLine f s line).appErrors
        = failedOfFlushed f 0 (processLine f s line).flushed := by
  obtain ⟨hd, bt0, tp, te, cl, elog, fl, st, ap, ae⟩ := s
  simp only at h1 h2 h3
  cases hd with
  | none =>
    cases hv : validateMandatoryFields (parseCSVLine line) with
    | ok u => simp [processLine, hv]; exact ⟨h1, h2, h3⟩
    | error e => simp [processLine, hv]; exact ⟨h1, h2, h3⟩
  | some hs =>
    by_cases ht : jsTrim line = ""
    · simp [processLine, ht]; exact ⟨h1, h2, h3⟩
    · cases hc : convertRowToObject hs (parseCSVLine line) with
      | error e => simp [processLine, ht, hc]; exact ⟨h1, h2, h3⟩
      | ok r =>
        simp only [processLine, ht, hc, if_neg ht]
        by_cases hlen : batchSize ≤ (bt0 ++ [r]).length
        · rw [if_pos hlen]
          exact flushBatch_accounting f
            ⟨some hs, bt0 ++ [r], tp, te, cl + 1, elog, fl, st, ap, ae⟩
            (bt0 ++ [r]) h1 h2 h3
        · rw [if_neg hlen]
          exact ⟨h1, h2, h3⟩

theorem foldl_accounting (f : Nat → Bool) :
    ∀ (lines : List String) (s : RunState),
      s.store = storeOfFlushed f 0 s.flushed →
      s.appProcessed = processedOfFlushed f 0 s.flushed →
      s.appErrors = failedOfFlushed f 0 s.flushed →
      (List.foldl (processLine f) s lines).store
          = storeOfFlushed f 0 (List.foldl (processLine f) s lines).flushed
      ∧ (List.foldl (processLine f) s lines).appProcessed
          = processedOfFlushed f 0 (List.foldl (processLine f) s lines).flushed
      ∧ (List.foldl (processLine f) s lines).appErrors
          = failedOfFlushed f 0 (List.foldl (processLine f) s lines).flushed := by
  intro lines
  induction lines with
  | nil => intro s h1 h2 h3; exact ⟨h1, h2, h3⟩
  | cons l ls ih =>
    intro s h1 h2 h3
    rw [List.foldl_cons]
    obtain ⟨g1, g2, g3⟩ := processLine_accounting f s l h1 h2 h3
    exact ih (processLine f s l) g1 g2 g3

theorem finishRun_accounting (f : Nat → Bool) (s : RunState)
    (h1 : s.store = storeOfFlushed f 0 s.flushed)
    (h2 : s.appProcessed = processedOfFlushed f 0 s.flushed)
    (h3 : s.appErrors = failedOfFlushed f 0 s.flushed) :
    (finishRun f s).store = storeOfFlushed f 0 (finishRun f s).flushed
    ∧ (finishRun f s).appProcessed = processedOfFlushed f 0 (finishRun f s).flushed
    ∧ (finishRun f s).appErrors = failedOfFlushed f 0 (finishRun f s).flushed := by
  rw [finishRun]
  by_cases hb : s.batch.isEmpty
  · rw [if_pos hb]; exact ⟨h1, h2, h3⟩
  · rw [if_neg hb]; exact flushBatch_accounting f s s.batch h1 h2 h3

theorem flushBatch_sizes (f : Nat → Bool) (s : RunState) (bt : List JSObj)
    (hbt : bt ≠ [] ∧ bt.length ≤ batchSize)
    (hall : ∀ b ∈ s.flushed, b ≠ [] ∧ b.length ≤ batchSize) :
    ∀ b ∈ (flushBatch f s bt).flushed, b ≠ [] ∧ b.length ≤ batchSize := by
  intro b hb
  rw [flushBatch_flushed, List.mem_append] at hb
  rcases hb with hb | hb
  · exact hall b hb
  · rw [List.mem_singleton] at hb
    rw [hb]
    exact hbt

theorem processLine_sizes (f : Nat → Bool) (s : RunState) (line : String)
    (hb : s.batch.length < batchSize)
    (hall : ∀ b ∈ s.flushed, b ≠ [] ∧ b.length ≤ batchSize) :
    (processLine f s line).batch.length < batchSize
    ∧ ∀ b ∈ (processLine f s line).flushed, b ≠ [] ∧ b.length ≤ batchSize := by
  obtain ⟨hd, bt0, tp, te, cl, elog, fl, st, ap, ae⟩ := s
  simp only at hb hall
  cases hd with
  | none =>
    cases hv : validateMandatoryFields (parseCSVLine line) with
    | ok u =>
      simp only [processLine, hv]
      exact ⟨hb, hall⟩
    | error e =>
      simp only [processLine, hv]
      exact ⟨hb, hall⟩
  | some hs =>
    by_cases ht : jsTrim line = ""
    · simp only [processLine, ht, if_pos rfl]
      exact ⟨hb, hall⟩
    · cases hc : convertRowToObject hs (parseCSVLine line) with
      | error e =>
        simp only [processLine, hc, if_neg ht]
        exact ⟨hb, hall⟩
      | ok r =>
        simp only [processLine, hc, if_neg ht]
        by_cases hlen : batchSize ≤ (bt0 ++ [r]).length
        · rw [if_pos hlen]
          constructor
          · rw [flushBatch_batch]
            simp [batchSize]
          · refine flushBatch_sizes f _ (bt0 ++ [r]) ⟨by simp, ?_⟩ hall
            simp only [List.length_append, List.length_cons, List.length_nil]
            omega
        · rw [if_neg hlen]
          constructor
          · simp only [List.length_append, List.length_cons, List.length_nil] at hlen ⊢
            omega
          · exact hall

theorem foldl_sizes (f : Nat → Bool) :
    ∀ (lines : List String) (s : RunState),
      s.batch.length < batchSize →
      (∀ b ∈ s.flushed, b ≠ [] ∧ b.length ≤ batchSize) →
      (List.foldl (processLine f) s lines).batch.length < batchSize
      ∧ ∀ b ∈ (List.foldl (processLine f) s lines).flushed,
          b ≠ [] ∧ b.length ≤ batchSize := by
  intro lines
  induction lines with
  | nil => intro s h1 h2; exact ⟨h1, h2⟩
  | cons l ls ih =>
    intro s h1 h2
    rw [List.foldl_cons]
    obtain ⟨g1, g2⟩ := processLine_sizes f s l h1 h2
    exact ih (processLine f s l) g1 g2

theorem finishRun_sizes (f : Nat → Bool) (s : RunState)
    (hb : s.batch.length < batchSize)
    (hall : ∀ b ∈ s.flushed, b ≠ [] ∧ b.length ≤ batchSize) :
    ∀ b ∈ (finishRun f s).flushed, b ≠ [] ∧ b.length ≤ batchSize := by
  rw [finishRun]
  by_cases he : s.batch.isEmpty
  · rw [if_pos he]; exact hall
  · rw [if_neg he]
    refine flushBatch_sizes f s s.batch ⟨?_, by omega⟩ hall
    intro hnil
    rw [hnil] at he
    exact he rfl

/-! ## Claims -/

/-- C1 (counterexample). The claim says a "missing mandatory fields" header
failure is fatal: no subsequent rows processed and nothing recorded through
the Error Sink. On the code, the validation error thrown for the header
line `name.firstName,name.lastName` is caught by the same per-line handler
as row errors: it IS appended to the error log (the Error Sink), counted in
the run's `errors`, and the subsequent data row `Rohit,Prasad` IS processed
against the already-assigned headers and flushed to the store. -/
theorem c1_header_failure_counterexample :
    (runCSV (fun _ => false) ["name.firstName,name.lastName", "Rohit,Prasad"]).errorLog
        = [(1, "Missing mandatory fields: age")]
    ∧ (runCSV (fun _ => false) ["name.firstName,name.lastName", "Rohit,Prasad"]).flushed
        = [[[("name", JSValue.obj
            [("firstName", JSValue.str "Rohit"), ("lastName", JSValue.str "Prasad")])]]]
    ∧ runErrors (runCSV (fun _ => false) ["name.firstName,name.lastName", "Rohit,Prasad"]) = 1 :=
  ⟨rfl, rfl, rfl⟩

/-- C1 (amended). When the first line's tokenization lacks a mandatory
path, the thrown error is handled like a row error: the line counter
advances, `headers` keeps the parsed (invalid) header list — so subsequent
rows are processed against it — the error tally is incremented and the
failure is appended to the error log (the Error Sink); the run is not
aborted. -/
theorem c1_header_failure_amended (f : Nat → Bool) (s : RunState) (line e : String)
    (hh : s.headers = none)
    (hv : validateMandatoryFields (parseCSVLine line) = .error e) :
    processLine f s line
      = { s with currLine := s.currLine + 1,
                 headers := some (parseCSVLine line),
                 totalErrors := s.totalErrors + 1,
                 errorLog := s.errorLog ++ [(s.currLine + 1, e)] } := by
  obtain ⟨hd, bt0, tp, te, cl, elog, fl, st, ap, ae⟩ := s
  simp only at hh
  subst hh
  simp only [processLine, hv]

/-- Witness for C1 (amended) at the concrete failing header line. -/
theorem c1_header_failure_amended_witness :
    processLine (fun _ => false) initState "name.firstName,name.lastName"
      = { initState with currLine := 1,
                         headers := some ["name.firstName", "name.lastName"],
                         totalErrors := 1,
                         errorLog := [(1, "Missing mandatory fields: age")] } :=
  c1_header_failure_amended (fun _ => false) initState "name.firstName,name.lastName"
    "Missing mandatory fields: age" rfl rfl

/-- C2. Over a header line plus 2500 valid data rows with batch bound 1000,
exactly three batches are flushed, of sizes 1000, 1000 and 500 in that
order (the last at end-of-stream); when exactly the second batch's write
fails, the run summary has `recordsProcessed = 1500` and `errors = 1000`
(the failed batch's size is added to the tally, with no per-line
attribution: the error log stays empty). -/
theorem c2_batch_semantics :
    (runCSV (fun k => decide (k = 1))
        (sampleHeaderLine :: List.replicate 2500 rohitLine)).flushed.map List.length
        = [1000, 1000, 500]
    ∧ recordsProcessed (runCSV (fun k => decide (k = 1))
        (sampleHeaderLine :: List.replicate 2500 rohitLine)) = 1500
    ∧ runErrors (runCSV (fun k => decide (k = 1))
        (sampleHeaderLine :: List.replicate 2500 rohitLine)) = 1000
    ∧ (runCSV (fun k => decide (k = 1))
        (sampleHeaderLine :: List.replicate 2500 rohitLine)).errorLog = [] := by
  rw [runCSV_2500_eq]
  refine ⟨?_, rfl, rfl, rfl⟩
  rw [List.map_cons, List.map_cons, List.map_cons, List.map_nil]
  simp only [List.length_replicate]

/-- C3. The batch write is all-or-nothing and failures never abort the run:
for every input and every pattern of insert failures, the final store
contains exactly the rows of the successful batches (a failed batch
persists nothing), `recordsProcessed` counts exactly the records of the
successful batches, and the app-side error tally counts exactly the
records of the failed batches — while the run itself always completes and
keeps flushing the remaining batches. -/
theorem c3_transactional_batches (f : Nat → Bool) (lines : List String) :
    (runCSV f lines).store = storeOfFlushed f 0 (runCSV f lines).flushed
    ∧ recordsProcessed (runCSV f lines)
        = processedOfFlushed f 0 (runCSV f lines).flushed
    ∧ (runCSV f lines).appErrors = failedOfFlushed f 0 (runCSV f lines).flushed := by
  obtain ⟨g1, g2, g3⟩ := foldl_accounting f lines initState rfl rfl rfl
  exact finishRun_accounting f _ g1 g2 g3

/-- C4 (counterexample). The claim says a row shorter than the header list
materializes with the missing trailing values as absent entries. On the
code, `values[i].trim()` on the missing index throws a `TypeError`, so
materialization of `Rohit,Prasad` under the three-column header fails. -/
theorem c4_short_row_counterexample :
    convertRowToObject ["name.firstName", "name.lastName", "age"] ["Rohit", "Prasad"]
      = .error "Cannot read properties of undefined (reading 'trim')" := rfl

/-- C4 (amended). Row length is still not compared against header length
up front, but a row whose value list is shorter than the header list
always fails materialization (a row-level error, routed to the Error
Sink); headers beyond the row's length never map to absent entries. -/
theorem c4_short_row_amended (headers values : List String)
    (h : values.length < headers.length) :
    ∃ e, convertRowToObject headers values = .error e :=
  convertRows_short headers values [] [] h

/-- Witness for C4 (amended) at the concrete two-value row. -/
theorem c4_short_row_amended_witness :
    (["Rohit", "Prasad"] : List String).length
        < (["name.firstName", "name.lastName", "age"] : List String).length
    ∧ ∃ e, convertRowToObject ["name.firstName", "name.lastName", "age"]
        ["Rohit", "Prasad"] = .error e :=
  ⟨by decide, c4_short_row_amended ["name.firstName", "name.lastName", "age"]
    ["Rohit", "Prasad"] (by decide)⟩

/-- C5. Age validation at materialization: if the (trimmed) value under the
`age` header is empty, not coercible to a number, or parses negative, the
row fails with the exact message carrying the offending raw value; a row
all of whose `age` columns hold non-empty digit strings (and whose value
list covers the headers) materializes successfully; and concretely the
rows with age `-10` and `pi` are excluded from the store while their line
numbers and messages appear in the error log. -/
theorem c5_age_validation :
    (∀ (hpre hpost vpre vpost : List String) (v : String),
        hpre.length = vpre.length →
        (∀ h ∈ hpre, jsTrim h ≠ "age") →
        ageInvalid (jsTrim v) = true →
        convertRowToObject (hpre ++ "age" :: hpost) (vpre ++ v :: vpost)
          = .error (ageErrorMessage (jsTrim v)))
    ∧ (∀ (hs vs : List String),
        hs.length ≤ vs.length →
        (∀ p ∈ hs.zip vs, jsTrim p.1 = "age" →
          isNonNegIntegerString (jsTrim p.2) = true) →
        ∃ r, convertRowToObject hs vs = .ok r)
    ∧ (runCSV (fun _ => false)
          [sampleHeaderLine, "Rohit,Prasad,-10", "Rohit,Prasad,pi"]).errorLog
        = [(2, ageErrorMessage "-10"), (3, ageErrorMessage "pi")]
    ∧ (runCSV (fun _ => false)
          [sampleHeaderLine, "Rohit,Prasad,-10", "Rohit,Prasad,pi"]).store = []
    ∧ recordsProcessed (runCSV (fun _ => false)
          [sampleHeaderLine, "Rohit,Prasad,-10", "Rohit,Prasad,pi"]) = 0 := by
  refine ⟨?_, ?_, rfl, rfl, rfl⟩
  · intro hpre hpost vpre vpost v h1 h2 h3
    exact convertRows_age_error hpre vpre hpost vpost v [] [] h1 h2 h3
  · intro hs vs h1 h2
    exact convertRows_ok hs vs [] [] h1 h2

/-- Witness for C5 at concrete rows: a `-10` age fails with the message
carrying the raw value, a `35` age materializes. -/
theorem c5_age_validation_witness :
    convertRowToObject ["name.firstName", "name.lastName", "age"]
        ["Rohit", "Prasad", "-10"] = .error (ageErrorMessage "-10")
    ∧ ∃ r, convertRowToObject ["name.firstName", "name.lastName", "age"]
        ["Rohit", "Prasad", "35"] = .ok r := by
  constructor
  · exact c5_age_validation.1 ["name.firstName", "name.lastName"] [] ["Rohit", "Prasad"] []
      "-10" rfl (by decide) (by decide)
  · exact c5_age_validation.2.1 ["name.firstName", "name.lastName", "age"]
      ["Rohit", "Prasad", "35"] (by decide) (by decide)

/-- C6 (counterexample). The claim says tokenizing `She said ""hi""`
reproduces the embedded literal quote characters. On the code it yields
the single field `She said hi`, with no quote character at all: in the
unquoted context, the first `"` of each `""` pair toggles INTO quotes and
the second (not followed by another `"`) toggles back out, so the escape
rule never fires and nothing is emitted for the quotes. -/
theorem c6_escaped_quotes_counterexample :
    parseCSVLine "She said \"\"hi\"\"" = ["She said hi"]
    ∧ (parseCSVLine "She said \"\"hi\"\"").all
        (fun fld => !fld.toList.contains '"') = true :=
  ⟨rfl, rfl⟩

/-- C6 (amended). Tokenizing the unquoted `She said ""hi""` yields the
single field `She said hi` (the `""` pairs toggle quote state twice and
emit nothing); the escaped-quote rule emits a literal `"` only when the
field is inside quotes, as in the fully quoted `"She said ""hi"""`, which
yields `She said "hi"`. -/
theorem c6_escaped_quotes_amended :
    parseCSVLine "She said \"\"hi\"\"" = ["She said hi"]
    ∧ parseCSVLine "\"She said \"\"hi\"\"\"" = ["She said \"hi\""] :=
  ⟨rfl, rfl⟩

/-- C7. Structural conflict in nested path assignment: when the first path
segment `k` currently holds a non-object leaf, `setNestedProperty`
silently overwrites `k` with a fresh empty object into which the rest of
the path is materialized — the earlier leaf value is discarded. -/
theorem c7_structural_conflict (fields : JSObj) (path v k : String)
    (ks : List String) (w : JSValue)
    (hsplit : splitPath path = k :: ks) (hks : ks ≠ [])
    (hlook : lookupKey fields k = some w) (hobj : isObjVal w = false) :
    setNestedProperty fields path v
        = insertKey fields k (.obj (setNestedGo v [] ks))
    ∧ lookupKey (setNestedProperty fields path v) k
        = some (.obj (setNestedGo v [] ks)) := by
  rw [setNestedProperty, hsplit]
  cases ks with
  | nil => exact absurd rfl hks
  | cons k2 ks2 =>
    have hmain : setNestedGo v fields (k :: k2 :: ks2)
        = insertKey fields k (.obj (setNestedGo v [] (k2 :: ks2))) := by
      rw [setNestedGo, hlook]
      cases w with
      | obj fs => simp [isObjVal] at hobj
      | str a => rfl
      | num n => rfl
      | nan => rfl
    exact ⟨hmain, by rw [hmain]; exact lookupKey_insertKey fields k _⟩

/-- Witness for C7: the leaf `a = "x"` is discarded when the path `a.b`
is assigned in the same row. -/
theorem c7_structural_conflict_witness :
    setNestedProperty [("a", JSValue.str "x")] "a.b" "y"
        = insertKey [("a", JSValue.str "x")] "a" (.obj (setNestedGo "y" [] ["b"]))
    ∧ lookupKey (setNestedProperty [("a", JSValue.str "x")] "a.b" "y") "a"
        = some (.obj (setNestedGo "y" [] ["b"])) :=
  c7_structural_conflict [("a", JSValue.str "x")] "a.b" "y" "a" ["b"]
    (JSValue.str "x") rfl (by decide) rfl rfl

/-- C8. End-to-end: header `name.firstName,name.lastName,age` plus the one
row `Rohit,Prasad,35` persists exactly the record with `name` "Rohit
Prasad", `age` 35, `address` NULL and `additional_info` NULL, and the run
summary is `recordsProcessed = 1`, `errors = 0`. -/
theorem c8_end_to_end :
    (runCSV (fun _ => false) [sampleHeaderLine, rohitLine]).store
        = [⟨"Rohit Prasad", some (.num 35), none, none⟩]
    ∧ recordsProcessed (runCSV (fun _ => false) [sampleHeaderLine, rohitLine]) = 1
    ∧ runErrors (runCSV (fun _ => false) [sampleHeaderLine, rohitLine]) = 0 :=
  ⟨rfl, rfl, rfl⟩

/-- C9. The tokenizer is total (it is a function defined by structural
scanning, with no failure case) and always returns at least one field;
the empty line yields exactly one empty-string field. -/
theorem c9_tokenizer_total :
    (∀ line : String, 1 ≤ (parseCSVLine line).length)
    ∧ parseCSVLine "" = [""] := by
  constructor
  · intro line
    have h := parseCSVLineAux_length line.toList false [] []
    simpa [parseCSVLine] using h
  · rfl

/-- C10. Every batch handed to the batch-write callback is non-empty and
holds at most `batchSize = 1000` records, for every input and failure
pattern: the size-triggered flush fires exactly at 1000 and the
end-of-stream flush only fires on a non-empty remainder. -/
theorem c10_batch_bounds (dbFails : Nat → Bool) (lines : List String) :
    ∀ b ∈ (runCSV dbFails lines).flushed, b ≠ [] ∧ b.length ≤ batchSize := by
  obtain ⟨g1, g2⟩ := foldl_sizes dbFails lines initState (by decide)
    (by intro b hb; simp [initState] at hb)
  exact finishRun_sizes dbFails _ g1 g2

/-- Witness for C10: the single flushed batch of the end-to-end run is
non-empty and within the bound. -/
theorem c10_batch_bounds_witness :
    [rohitRecord] ∈ (runCSV (fun _ => false) [sampleHeaderLine, rohitLine]).flushed
    ∧ [rohitRecord] ≠ [] ∧ ([rohitRecord] : List JSObj).length ≤ batchSize := by
  have hmem : [rohitRecord] ∈ (runCSV (fun _ => false) [sampleHeaderLine, rohitLine]).flushed := by
    rw [show (runCSV (fun _ => false) [sampleHeaderLine, rohitLine]).flushed
      = [[rohitRecord]] from rfl]
    exact List.mem_singleton.mpr rfl
  exact ⟨hmem, c10_batch_bounds (fun _ => false) [sampleHeaderLine, rohitLine]
    [rohitRecord] hmem⟩
